import Mathlib

/-!
Verification of the bootstrap-and-install orchestrator of the rpi_kubernetes
repository (bootstrap/scripts/bootstrap_cluster.py, install_k3s.py,
fix_cgroups.py, check_cluster_state.py), as a shallow embedding in Lean 4.

The embedding mirrors the Python control flow: pure string manipulation is
translated to functions over `String` / `List Char`, the per-step loops of
`bootstrap_ubuntu` / `bootstrap_rpi` become structural recursions over the
list of remote execution results, and the two `main` entry points become
functions from the CLI arguments plus an "environment oracle" (describing
what every remote command would return) to the exit code and the list of
observable remote actions (events).
-/

namespace RpiK8s

/-! ### String utilities modelling the Python primitives used by the scripts
`containsSub s pat` models Python's `pat in s` (substring test);
`replaceAllFuel` models Python's `str.replace` (replace every
non-overlapping occurrence, scanning left to right); `lowerString` models
`str.lower()` on ASCII output; `pyStrip` models `str.strip()`. -/

def containsSub : List Char → List Char → Bool
  | [], pat => pat.isEmpty
  | c :: t, pat => pat.isPrefixOf (c :: t) || containsSub t pat

def strContains (s pat : String) : Bool := containsSub s.data pat.data

def replaceAllFuel (pat rep : List Char) : Nat → List Char → List Char
  | 0, s => s
  | _ + 1, [] => []
  | fuel + 1, c :: rest =>
    if pat.isPrefixOf (c :: rest) then
      rep ++ replaceAllFuel pat rep fuel ((c :: rest).drop pat.length)
    else
      c :: replaceAllFuel pat rep fuel rest

def pyReplace (s pat rep : String) : String :=
  ⟨replaceAllFuel pat.data rep.data s.data.length s.data⟩

def lowerString (s : String) : String := ⟨s.data.map Char.toLower⟩

def pyStrip (s : String) : String := s.trim

/-! ### Node inventory (bootstrap_cluster.py lines 23-48, install_k3s.py lines 23-47) -/

inductive NodeType where
  | controlPlane
  | worker
deriving DecidableEq

structure Node where
  name : String
  host : String
  user : String
  typ : NodeType
deriving DecidableEq

def CONTROL_PLANE : Node :=
  { name := "k8s-control", host := "192.168.12.112", user := "julia", typ := .controlPlane }

def WORKERS : List Node :=
  [ { name := "rpi1", host := "192.168.12.48", user := "julian", typ := .worker },
    { name := "rpi2", host := "192.168.12.88", user := "julian", typ := .worker },
    { name := "rpi3", host := "192.168.12.170", user := "julian", typ := .worker },
    { name := "rpi4", host := "192.168.12.235", user := "julian", typ := .worker } ]

/-! ### Bootstrap phase engine (bootstrap_cluster.py, bootstrap_ubuntu lines 86-131
and bootstrap_rpi lines 134-198)

A remote command produces captured stdout, stderr, and an exit code
(`run_command`, lines 73-83).  A step whose dispatch raises a transport
exception is modelled as `none`; the surrounding `try` of both bootstrap
functions then aborts the node with result `False`. -/

structure ExecResult where
  out : String
  err : String
  code : Nat
deriving DecidableEq

inductive Outcome where
  | ok
  | warn
  | failed
deriving DecidableEq

/-- Outcome label printed by `bootstrap_rpi` for one step (lines 183-189):
`[WARN]` when the exit code is non-zero and lowercased stderr does not
contain `"already"`, `[OK]` otherwise. -/
def classifyRpi (r : ExecResult) : Outcome :=
  if r.code != 0 && !(strContains (lowerString r.err) "already") then .warn else .ok

/-- `bootstrap_ubuntu`'s command loop (lines 116-123): runs steps in order,
returns the printed outcomes and the function's boolean result; stops at the
first step with non-zero exit code, returning `False`. -/
def run_ubuntu_steps : List ExecResult → List Outcome × Bool
  | [] => ([], true)
  | r :: rs =>
    if r.code != 0 then ([.failed], false)
    else
      let p := run_ubuntu_steps rs
      (.ok :: p.1, p.2)

/-- `bootstrap_rpi`'s command loop (lines 181-194): every step is dispatched
in order regardless of previous exit codes; a transport exception (`none`)
aborts with `False`, otherwise the loop completes and the function returns
`True`. -/
def run_rpi_steps : List (Option ExecResult) → Bool × List Outcome
  | [] => (true, [])
  | none :: _ => (false, [])
  | some r :: rs =>
    let p := run_rpi_steps rs
    (p.1, classifyRpi r :: p.2)

/-- `bootstrap_rpi` overall: `get_ssh_client` failure (connection refused,
authentication error) is a transport exception caught by the same `try`,
yielding `False` before any step runs. -/
def bootstrap_rpi (connOk : Bool) (env : List (Option ExecResult)) : Bool × List Outcome :=
  if connOk then run_rpi_steps env else (false, [])

/-! ### Cgroup-enabling edit of the boot command line

Two implementations exist.  `bootstrap_cluster.py` lines 146-161 run a shell
snippet that unconditionally copies the cmdline file to its `.bak` backup and
appends the two parameters only when `cgroup_memory=1` is absent.
`fix_cgroups.py` lines 51-106 return early (no backup, no write) when both
parameters are present, otherwise back up, strip any partial parameters, and
append both afresh.  Each model returns the new line and whether the backup
copy was performed. -/

def bootstrap_rpi_cgroup_edit (line : String) : String × Bool :=
  ( if strContains line "cgroup_memory=1" then line
    else line ++ " cgroup_memory=1 cgroup_enable=memory",
    true )

def fix_cgroups_edit (line : String) : String × Bool :=
  if strContains line "cgroup_memory=1" && strContains line "cgroup_enable=memory" then
    (line, false)
  else
    let l1 := pyReplace line " cgroup_memory=1" ""
    let l2 := pyReplace l1 " cgroup_enable=memory" ""
    (pyStrip l2 ++ " cgroup_memory=1 cgroup_enable=memory", true)

/-! ### Credential rewrite (bootstrap_cluster.py line 254, install_k3s.py line 147)
`kubeconfig = out.replace("127.0.0.1", node["host"]).replace("localhost", node["host"])` -/

def rewriteCredential (host text : String) : String :=
  pyReplace (pyReplace text "127.0.0.1" host) "localhost" host

/-! ### Convergence checker, cgroup-memory probe (check_cluster_state.py lines 75-90)
The hierarchy is detected by testing for `/sys/fs/cgroup/memory.stat`
(v2 when present, else v1); on v2 the code computes
`"memory" in out or True` over `cgroup.controllers`, on v1 it compares the
fourth `/proc/cgroups` column of the `memory` row with `"1"`. -/

def checkCgroupsMemory (memoryStatExists : Bool) (controllers : String)
    (procCgroupsMemCol4 : String) : Bool :=
  if memoryStatExists then
    (strContains controllers "memory" || true)
  else
    procCgroupsMemCol4 == "1"

/-! ### Reboot/wait synchronizer (bootstrap_cluster.py wait_for_nodes lines 330-355,
fix_cgroups.py lines 124-144)

`probe round name` tells whether a lightweight connection attempt to the
named node succeeds during poll round `round`; the loop repeatedly filters
the pending list, stopping early once it is empty, and runs for at most
`rounds` polls (the elapsed-time bound).  Returns the final pending list. -/

def wait_for_nodes_go (probe : Nat → String → Bool) : Nat → Nat → List String → List String
  | _, 0, pending => pending
  | i, fuel + 1, pending =>
    if pending.isEmpty then pending
    else wait_for_nodes_go probe (i + 1) fuel (pending.filter (fun n => !(probe i n)))

/-- `wait_for_nodes`: success exactly when the pending set empties, and the
warning names the nodes still pending. -/
def wait_for_nodes (probe : Nat → String → Bool) (rounds : Nat) (nodes : List String) :
    Bool × List String :=
  let p := wait_for_nodes_go probe 0 rounds nodes
  (p.isEmpty, p)

/-! ### bootstrap_cluster.py main (lines 358-463)

The CLI flags are the six booleans of `Args`.  `Env` is the oracle for the
remote world and the local working directory: the boolean result each
bootstrap function would return per node name, the synchronizer's result,
whether the k3s server install phase would return `True`, the token value
`install_k3s_server` would write to `k3s_token.txt` (when `cat node-token`
succeeds there), and the pre-existing content of `k3s_token.txt`.

The observable remote actions of a run are collected as `Event`s in
program order. -/

structure Args where
  dryRun : Bool
  bootstrapOnly : Bool
  k3sOnly : Bool
  skipReboot : Bool
  workersOnly : Bool
  controlPlaneOnly : Bool
deriving DecidableEq

structure Env where
  bootstrapOk : String → Bool
  waitOk : Bool
  serverOk : Bool
  serverToken : Option String
  tokenFile0 : Option String

inductive Event where
  | bootstrapNode (name : String)
  | rebootNode (name : String)
  | waitNodes
  | installServer
  | pollTimeout
  | installAgent (name : String) (token : String)
deriving DecidableEq

/-- Nodes processed by the run (main lines 379-383). -/
def allNodes (a : Args) : List Node :=
  (if a.workersOnly then [] else [CONTROL_PLANE]) ++
  (if a.controlPlaneOnly then [] else WORKERS)

/-- Whether a node's bootstrap call returns `True`: always in dry-run
(both bootstrap functions return early), otherwise the oracle's answer. -/
def nodeBootOk (a : Args) (e : Env) (n : Node) : Bool :=
  a.dryRun || e.bootstrapOk n.name

/-- Worker nodes collected into `needs_reboot` (main lines 394-400): worker
type and bootstrap reported success. -/
def needsRebootList (a : Args) (e : Env) : List Node :=
  (allNodes a).filter (fun n => decide (n.typ = .worker) && nodeBootOk a e n)

/-- The content of `k3s_token.txt` at the point main reads it back
(lines 436-445): `install_k3s_server` (lines 240-248) rewrites the file only
in a real (non-dry) run that includes the control plane, returns `True`,
and succeeds in reading the remote token; otherwise whatever was on disk
before the run is still there. -/
def tokenAfterServer (a : Args) (e : Env) : Option String :=
  if !a.workersOnly && !a.dryRun && e.serverOk then
    match e.serverToken with
    | some v => some v
    | none => e.tokenFile0
  else e.tokenFile0

/-- Phase 2 of main (lines 420-463): optional server install, token-file
read-back, then one agent install per worker.  Individual agent failures
only print a warning (line 450), so the phase ends with exit code 0. -/
def bcPhase2 (a : Args) (e : Env) (evs : List Event) : Nat × List Event :=
  if a.bootstrapOnly then (0, evs)
  else
    let evs2 := if !a.workersOnly then evs ++ [Event.installServer] else evs
    if !a.workersOnly && !a.dryRun && !e.serverOk then (1, evs2)
    else if !a.controlPlaneOnly then
      match tokenAfterServer a e with
      | none => (1, evs2)
      | some raw =>
        (0, evs2 ++ WORKERS.map (fun w => Event.installAgent w.name (pyStrip raw)))
    else (0, evs2)

/-- `main` of bootstrap_cluster.py: phase 1 bootstraps every selected node,
reboots the workers that need it and waits for them (lines 386-418), aborting
with exit code 1 when `wait_for_nodes` fails; then phase 2. -/
def bcMain (a : Args) (e : Env) : Nat × List Event :=
  if !a.k3sOnly then
    let ev1 := (allNodes a).map (fun n => Event.bootstrapNode n.name)
    let nr := needsRebootList a e
    if !nr.isEmpty && !a.skipReboot && !a.dryRun then
      let ev2 := ev1 ++ nr.map (fun n => Event.rebootNode n.name) ++ [Event.waitNodes]
      if !e.waitOk then (1, ev2) else bcPhase2 a e ev2
    else bcPhase2 a e ev1
  else bcPhase2 a e []

/-! ### install_k3s.py main (lines 258-331)

`IkEnv` is the oracle for this script: whether `which k3s` succeeds on the
control plane, whether the pre-check `systemctl is-active k3s` reports
active (short-circuit path, lines 87-98), the installer's exit status, the
result of each of the 30 `is-active` polls (lines 116-123), the remote
token read, the pre-existing token file, and which workers short-circuit
because their agent is already active (lines 184-191). -/

structure IkEnv where
  k3sInstalled : Bool
  preActive : Bool
  preCatOk : Bool
  preTokenValue : String
  installOk : Bool
  activeAt : Nat → Bool
  catTokenOk : Bool
  tokenValue : String
  tokenFile0 : Option String
  agentShortCircuit : String → Bool

/-- `install_k3s_server` of install_k3s.py (lines 75-170): returns the
function's boolean result, the token it returns (already `.strip()`ped by
`run`), and the observable events (`installServer` when the installer is
actually invoked, `pollTimeout` when the 30-round active poll never sees
"active" and the for-else branch logs a timeout). -/
def ikServer (e : IkEnv) : Bool × Option String × List Event :=
  if e.k3sInstalled && e.preActive then
    (true, if e.preCatOk then some e.preTokenValue else none, [])
  else
    if !e.installOk then (false, none, [Event.installServer])
    else
      let evs :=
        if (List.range 30).any e.activeAt then [Event.installServer]
        else [Event.installServer, Event.pollTimeout]
      (true, if e.catTokenOk then some e.tokenValue else none, evs)

/-- Python falsiness of the token variable (`if not token:` line 289):
`None` or the empty string. -/
def pyFalsy : Option String → Bool
  | none => true
  | some t => t.isEmpty

/-- The token value actually used for the agents (lines 274-295): the
`--token` argument in agents-only mode, else the server's return value;
when falsy, fall back to the stripped content of `k3s_token.txt`. -/
def ikTokenAfter (agentsOnly : Bool) (argToken : Option String) (e : IkEnv) : Option String :=
  let tk := if agentsOnly then argToken else (ikServer e).2.1
  if pyFalsy tk then e.tokenFile0.map pyStrip else tk

/-- Tail of install_k3s.py main after the server block (lines 284-331):
server-only mode exits 0; a missing token exits 1; otherwise every worker
whose agent is not already active gets an agent install, failures are only
collected into a printed warning, and the run exits 0. -/
def ikRest (serverOnly : Bool) (tokenFinal : Option String) (evs : List Event) (e : IkEnv) :
    Nat × List Event :=
  if serverOnly then (0, evs)
  else
    match tokenFinal with
    | none => (1, evs)
    | some t =>
      (0, evs ++ WORKERS.filterMap (fun w =>
        if e.agentShortCircuit w.name then none else some (Event.installAgent w.name t)))

/-- `main` of install_k3s.py: unless agents-only, run the server install and
abort with exit 1 when it fails (lines 278-282); then the common tail. -/
def ikMain (serverOnly agentsOnly : Bool) (argToken : Option String) (e : IkEnv) :
    Nat × List Event :=
  if agentsOnly then
    ikRest serverOnly (ikTokenAfter agentsOnly argToken e) [] e
  else
    let s := ikServer e
    if !s.1 then (1, s.2.2)
    else ikRest serverOnly (ikTokenAfter agentsOnly argToken e) s.2.2 e

/-! ### Sample configurations used to witness the theorems below -/

def rpi1 : Node :=
  { name := "rpi1", host := "192.168.12.48", user := "julian", typ := .worker }

def argsNone : Args :=
  { dryRun := false, bootstrapOnly := false, k3sOnly := false,
    skipReboot := false, workersOnly := false, controlPlaneOnly := false }

def envAllGood : Env :=
  { bootstrapOk := fun _ => true, waitOk := true, serverOk := true,
    serverToken := some "K10deadbeef::node:token", tokenFile0 := none }

def envWaitFail : Env :=
  { bootstrapOk := fun _ => true, waitOk := false, serverOk := true,
    serverToken := some "K10deadbeef::node:token", tokenFile0 := none }

def envNoToken : Env :=
  { bootstrapOk := fun _ => true, waitOk := true, serverOk := true,
    serverToken := none, tokenFile0 := none }

def envCpBootFail : Env :=
  { bootstrapOk := fun s => !(s == "k8s-control"), waitOk := true, serverOk := true,
    serverToken := some "K10deadbeef::node:token", tokenFile0 := none }

def ikEnvTimeout : IkEnv :=
  { k3sInstalled := false, preActive := false, preCatOk := false, preTokenValue := "",
    installOk := true, activeAt := fun _ => false, catTokenOk := true,
    tokenValue := "K10deadbeef::node:token", tokenFile0 := none,
    agentShortCircuit := fun _ => false }

def ikEnvInstallFail : IkEnv :=
  { k3sInstalled := false, preActive := false, preCatOk := false, preTokenValue := "",
    installOk := false, activeAt := fun _ => false, catTokenOk := false,
    tokenValue := "", tokenFile0 := none,
    agentShortCircuit := fun _ => false }

/-! ## Theorems -/

/-! ### Helper lemmas about the step engines -/

theorem run_rpi_steps_map (l : List ExecResult) :
    run_rpi_steps (l.map some) = (true, l.map classifyRpi) := by
  induction l with
  | nil => rfl
  | cons x xs ih => simp [run_rpi_steps, ih]

theorem run_ubuntu_steps_stops (pre : List ExecResult) (r : ExecResult)
    (post : List ExecResult) (hpre : ∀ x ∈ pre, x.code = 0) (hr : r.code ≠ 0) :
    run_ubuntu_steps (pre ++ r :: post)
      = (pre.map (fun _ => Outcome.ok) ++ [Outcome.failed], false) := by
  induction pre with
  | nil => simp [run_ubuntu_steps, hr]
  | cons x xs ih =>
    have hx : x.code = 0 := hpre x (by simp)
    have ih2 := ih (fun y hy => hpre y (by simp [hy]))
    simp [run_ubuntu_steps, hx, ih2]

/-! ### Helper lemma about the reboot/wait synchronizer -/

theorem wait_for_nodes_go_eq (probe : Nat → String → Bool) :
    ∀ (fuel i : Nat) (pending : List String),
    wait_for_nodes_go probe i fuel pending
      = pending.filter (fun n => (List.range fuel).all (fun j => !(probe (i + j) n))) := by
  intro fuel
  induction fuel with
  | zero => intro i pending; simp [wait_for_nodes_go]
  | succ f ih =>
    intro i pending
    by_cases hp : pending.isEmpty
    · rw [List.isEmpty_eq_true] at hp
      subst hp
      simp [wait_for_nodes_go]
    · simp only [wait_for_nodes_go, hp, if_neg, Bool.false_eq_true, not_false_eq_true,
        ite_false]
      rw [ih, List.filter_filter]
      congr 1
      funext n
      rw [List.range_succ_eq_map]
      simp only [List.all_cons, List.all_map, Function.comp, Nat.add_zero]
      have harith : ∀ j : Nat, i + 1 + j = i + Nat.succ j := by omega
      simp only [harith]
      exact Bool.and_comm _ _

/-- Claim C3: for N nodes flagged needsReboot, the reboot/wait synchronizer
returns success with an empty pending set iff every node responds to a
connection probe within the poll rounds executed before the timeout, and on
failure it reports exactly the nodes that never responded. -/
theorem claim_C3 (probe : Nat → String → Bool) (rounds : Nat) (nodes : List String) :
    (wait_for_nodes probe rounds nodes).2
      = nodes.filter (fun n => (List.range rounds).all (fun j => !(probe j n)))
    ∧ ((wait_for_nodes probe rounds nodes).1 = true
      ↔ ∀ n ∈ nodes, ∃ j, j < rounds ∧ probe j n = true) := by
  have hgo := wait_for_nodes_go_eq probe rounds 0 nodes
  simp only [Nat.zero_add] at hgo
  constructor
  · simpa [wait_for_nodes] using hgo
  · simp only [wait_for_nodes, hgo, List.isEmpty_eq_true, List.filter_eq_nil_iff,
      List.all_eq_true, List.mem_range, Bool.not_eq_true', Bool.not_eq_false]
    constructor
    · intro h n hn
      have := h n hn
      push_neg at this
      obtain ⟨j, hj, hpj⟩ := this
      exact ⟨j, hj, by simpa using hpj⟩
    · intro h n hn
      obtain ⟨j, hj, hpj⟩ := h n hn
      intro hall
      have := hall j hj
      rw [hpj] at this
      exact absurd this (by simp)

/-- Claim C9 (corrected part refuted): on a cgroup-v2 node the convergence
checker reports the memory controller available even when the unified
controllers list does not contain it, because the code computes
`"memory" in out or True`. -/
theorem claim_C9_counterexample :
    checkCgroupsMemory true "cpuset cpu io" "0" = true
    ∧ strContains "cpuset cpu io" "memory" = false := by decide

/-- Claim C9 (amended): the checker detects the hierarchy via the presence of
the unified memory.stat file; on v2 it always reports the memory controller
available (the detection itself already saw a memory interface file), and on
v1 it reports available exactly when the fourth /proc/cgroups column of the
memory row is the string "1". -/
theorem claim_C9 (controllers col4 : String) :
    checkCgroupsMemory true controllers col4 = true
    ∧ checkCgroupsMemory false controllers col4 = (col4 == "1") := by
  constructor <;> simp [checkCgroupsMemory]

/-- Claim C6 (as stated refuted): starting from a boot command line without
the cgroup parameters, the first application of bootstrap_cluster.py's
cgroup-enabling edit adds them and makes the backup, and a re-run over the
already-edited line leaves the line unchanged but performs the backup copy
again — the `cp "$CMDLINE_FILE" "${CMDLINE_FILE}.bak"` runs unconditionally,
so the backup is not created exactly once across re-runs. -/
theorem claim_C6_counterexample :
    (bootstrap_rpi_cgroup_edit "console=tty1 root=PARTUUID=ab").2 = true
    ∧ (bootstrap_rpi_cgroup_edit
        ((bootstrap_rpi_cgroup_edit "console=tty1 root=PARTUUID=ab").1)).2 = true
    ∧ (bootstrap_rpi_cgroup_edit
        ((bootstrap_rpi_cgroup_edit "console=tty1 root=PARTUUID=ab").1)).1
      = (bootstrap_rpi_cgroup_edit "console=tty1 root=PARTUUID=ab").1 := by
  decide

/-- Claim C6 (amended): applying either cgroup-enabling edit to a boot
command line that already contains both required parameters leaves the line
byte-for-byte unchanged and never duplicates a parameter; fix_cgroups.py
skips the backup in that case (so its backup happens at most once, on the
run that actually edits), while bootstrap_cluster.py's in-shell edit
performs the backup copy on every run. -/
theorem claim_C6 (line : String)
    (h1 : strContains line "cgroup_memory=1" = true)
    (h2 : strContains line "cgroup_enable=memory" = true) :
    bootstrap_rpi_cgroup_edit line = (line, true)
    ∧ fix_cgroups_edit line = (line, false) := by
  constructor
  · simp [bootstrap_rpi_cgroup_edit, h1]
  · simp [fix_cgroups_edit, h1, h2]

theorem claim_C6_witness :
    strContains "root=PARTUUID=ab cgroup_memory=1 cgroup_enable=memory" "cgroup_memory=1" = true
    ∧ strContains "root=PARTUUID=ab cgroup_memory=1 cgroup_enable=memory"
        "cgroup_enable=memory" = true
    ∧ bootstrap_rpi_cgroup_edit "root=PARTUUID=ab cgroup_memory=1 cgroup_enable=memory"
      = ("root=PARTUUID=ab cgroup_memory=1 cgroup_enable=memory", true)
    ∧ fix_cgroups_edit "root=PARTUUID=ab cgroup_memory=1 cgroup_enable=memory"
      = ("root=PARTUUID=ab cgroup_memory=1 cgroup_enable=memory", false) :=
  ⟨by decide, by decide,
   (claim_C6 "root=PARTUUID=ab cgroup_memory=1 cgroup_enable=memory"
     (by decide) (by decide)).1,
   (claim_C6 "root=PARTUUID=ab cgroup_memory=1 cgroup_enable=memory"
     (by decide) (by decide)).2⟩

/-- Claim C8 (as stated refuted): a constrained-ARM step that fails with
exit code 1 and whose captured stdout contains "already" (stderr empty) is
labelled Warn, not Ok — the already-satisfied test looks only at stderr. -/
theorem claim_C8_counterexample :
    classifyRpi { out := "swap is already disabled", err := "", code := 1 } = Outcome.warn
    ∧ strContains (lowerString "swap is already disabled") "already" = true := by
  decide

/-- Claim C8 (amended): steps execute strictly in order; on a standard-Linux
node execution stops at the first step with non-zero exit code and the node
fails; on a constrained-ARM node every step is dispatched regardless of
previous exit codes, a failing step being recorded as Warn, except that a
failing step whose captured stderr (lowercased) contains "already" is
recorded as Ok — stdout is never consulted by that test. -/
theorem claim_C8 (pre : List ExecResult) (r : ExecResult) (post : List ExecResult)
    (hpre : ∀ x ∈ pre, x.code = 0) (hr : r.code ≠ 0) :
    run_ubuntu_steps (pre ++ r :: post)
      = (pre.map (fun _ => Outcome.ok) ++ [Outcome.failed], false)
    ∧ run_rpi_steps ((pre ++ r :: post).map some)
      = (true, (pre ++ r :: post).map classifyRpi)
    ∧ (classifyRpi r = Outcome.ok ↔ strContains (lowerString r.err) "already" = true) := by
  refine ⟨run_ubuntu_steps_stops pre r post hpre hr, run_rpi_steps_map _, ?_⟩
  have hb : (r.code != 0) = true := by simpa using hr
  cases hc : strContains (lowerString r.err) "already" <;>
    simp [classifyRpi, hb, hc]

theorem claim_C8_witness :
    (∀ x ∈ ([] : List ExecResult), x.code = 0)
    ∧ ({ out := "", err := "E: Unable to locate package", code := 100 : ExecResult }).code ≠ 0
    ∧ run_ubuntu_steps [{ out := "", err := "E: Unable to locate package", code := 100 }]
      = ([Outcome.failed], false)
    ∧ run_rpi_steps [some { out := "", err := "E: Unable to locate package", code := 100 }]
      = (true, [Outcome.warn])
    ∧ (classifyRpi { out := "", err := "E: Unable to locate package", code := 100 }
        = Outcome.ok
      ↔ strContains (lowerString "E: Unable to locate package") "already" = true) :=
  ⟨by simp, by decide,
   by simpa using
     (claim_C8 [] { out := "", err := "E: Unable to locate package", code := 100 } []
       (by simp) (by decide)).1,
   by simpa [classifyRpi] using
     (claim_C8 [] { out := "", err := "E: Unable to locate package", code := 100 } []
       (by simp) (by decide)).2.1,
   (claim_C8 [] { out := "", err := "E: Unable to locate package", code := 100 } []
     (by simp) (by decide)).2.2⟩

/-- Claim C10: on a constrained-ARM worker, if the SSH connection and every
command dispatch complete without a transport exception, bootstrap_rpi
returns True no matter what the step exit codes were, and main then records
the node as needing reboot. -/
theorem claim_C10 (rs : List ExecResult) (a : Args) (e : Env) (w : Node)
    (hw : w ∈ WORKERS) (hcp : a.controlPlaneOnly = false)
    (hok : e.bootstrapOk w.name = true) :
    (bootstrap_rpi true (rs.map some)).1 = true
    ∧ w ∈ needsRebootList a e := by
  constructor
  · simp [bootstrap_rpi, run_rpi_steps_map]
  · have htyp : w.typ = NodeType.worker := by fin_cases hw <;> rfl
    have hmem : w ∈ allNodes a := by
      have : w ∈ (if a.controlPlaneOnly then [] else WORKERS) := by
        rw [hcp]; simpa using hw
      simp [allNodes, List.mem_append, this]
    simp [needsRebootList, List.mem_filter, hmem, htyp, nodeBootOk, hok]

theorem claim_C10_witness :
    rpi1 ∈ WORKERS
    ∧ argsNone.controlPlaneOnly = false
    ∧ envAllGood.bootstrapOk "rpi1" = true
    ∧ (bootstrap_rpi true ([{ out := "", err := "", code := 1 },
        { out := "", err := "", code := 127 }].map some)).1 = true
    ∧ rpi1 ∈ needsRebootList argsNone envAllGood :=
  ⟨by decide, rfl, rfl,
   (claim_C10 [{ out := "", err := "", code := 1 }, { out := "", err := "", code := 127 }]
     argsNone envAllGood rpi1 (by decide) rfl rfl).1,
   (claim_C10 [{ out := "", err := "", code := 1 }, { out := "", err := "", code := 127 }]
     argsNone envAllGood rpi1 (by decide) rfl rfl).2⟩

/-! ### Helper lemmas about bootstrap_cluster.py main -/

theorem mem_bcPhase2 (a : Args) (e : Env) (evs : List Event) (ev : Event)
    (h : ev ∈ (bcPhase2 a e evs).2) :
    ev ∈ evs ∨ ev = Event.installServer
    ∨ ∃ raw w, tokenAfterServer a e = some raw ∧ w ∈ WORKERS
        ∧ ev = Event.installAgent w.name (pyStrip raw) := by
  have hev2 : ∀ ev : Event,
      ev ∈ (if (!a.workersOnly) = true then evs ++ [Event.installServer] else evs) →
      ev ∈ evs ∨ ev = Event.installServer := by
    intro ev h
    split at h
    · rcases List.mem_append.1 h with h1 | h1
      · exact Or.inl h1
      · exact Or.inr (by simpa using h1)
    · exact Or.inl h
  simp only [bcPhase2] at h
  split at h
  · exact Or.inl h
  · split at h
    · rcases hev2 ev h with h1 | h1
      · exact Or.inl h1
      · exact Or.inr (Or.inl h1)
    · split at h
      · split at h
        · rcases hev2 ev h with h1 | h1
          · exact Or.inl h1
          · exact Or.inr (Or.inl h1)
        · rename_i raw hraw
          rcases List.mem_append.1 h with h1 | h1
          · rcases hev2 ev h1 with h2 | h2
            · exact Or.inl h2
            · exact Or.inr (Or.inl h2)
          · simp only [List.mem_map] at h1
            obtain ⟨w, hw, hww⟩ := h1
            exact Or.inr (Or.inr ⟨raw, w, hraw, hw, hww.symm⟩)
      · rcases hev2 ev h with h1 | h1
        · exact Or.inl h1
        · exact Or.inr (Or.inl h1)

theorem bcPhase2_exit_one (a : Args) (e : Env) (evs : List Event)
    (hbo : a.bootstrapOnly = false) (hcp : a.controlPlaneOnly = false)
    (htok : tokenAfterServer a e = none) :
    (bcPhase2 a e evs).1 = 1 := by
  simp only [bcPhase2, hbo, hcp, htok, Bool.not_false, Bool.false_eq_true, if_false,
    if_true]
  split <;> rfl

theorem bcMain_shape (a : Args) (e : Env) :
    (∃ evs, (∀ w t, Event.installAgent w t ∉ evs) ∧ Event.installServer ∉ evs
      ∧ bcMain a e = bcPhase2 a e evs)
    ∨ ((bcMain a e).1 = 1 ∧ (∀ w t, Event.installAgent w t ∉ (bcMain a e).2)
        ∧ Event.installServer ∉ (bcMain a e).2) := by
  have hno : ∀ (ns ms : List Node),
      (∀ w t, Event.installAgent w t ∉
        (ns.map (fun n => Event.bootstrapNode n.name)
          ++ ms.map (fun n => Event.rebootNode n.name) ++ [Event.waitNodes]))
      ∧ Event.installServer ∉
        (ns.map (fun n => Event.bootstrapNode n.name)
          ++ ms.map (fun n => Event.rebootNode n.name) ++ [Event.waitNodes]) := by
    intro ns ms
    constructor
    · intro w t
      simp [List.mem_append, List.mem_map]
    · simp [List.mem_append, List.mem_map]
  simp only [bcMain]
  split
  · split
    · split
      · right
        refine ⟨rfl, ?_, ?_⟩
        · intro w t; exact ((hno _ _).1 w t)
        · exact (hno _ _).2
      · left
        exact ⟨_, (hno _ _).1, (hno _ _).2, rfl⟩
    · left
      refine ⟨_, ?_, ?_, rfl⟩
      · intro w t; simp [List.mem_map]
      · simp [List.mem_map]
  · left
    exact ⟨[], by simp, by simp, rfl⟩

/-! ### Helper lemmas about install_k3s.py main -/

theorem ikServer_no_agent (ik : IkEnv) (w t : String) :
    Event.installAgent w t ∉ (ikServer ik).2.2 := by
  by_cases h1 : (ik.k3sInstalled && ik.preActive) = true
  · simp [ikServer, h1]
  · by_cases h2 : ik.installOk = true
    · by_cases h3 : ((List.range 30).any ik.activeAt) = true
      · simp [ikServer, h1, h2, h3]
      · simp [ikServer, h1, h2, h3]
    · simp [ikServer, h1, h2]

theorem mem_ikRest_agent (sOnly : Bool) (tok : Option String) (evs : List Event)
    (ik : IkEnv) (w t : String)
    (h : Event.installAgent w t ∈ (ikRest sOnly tok evs ik).2) :
    Event.installAgent w t ∈ evs ∨ tok = some t := by
  simp only [ikRest] at h
  split at h
  · exact Or.inl h
  · split at h
    · exact Or.inl h
    · rename_i t' _
      rcases List.mem_append.1 h with h1 | h1
      · exact Or.inl h1
      · simp only [List.mem_filterMap] at h1
        obtain ⟨x, _, hx⟩ := h1
        split at hx
        · exact absurd hx (by simp)
        · simp only [Option.some.injEq] at hx
          cases hx
          exact Or.inr rfl

theorem ikRest_exit_one (sOnly : Bool) (evs : List Event) (ik : IkEnv)
    (hs : sOnly = false) :
    (ikRest sOnly none evs ik).1 = 1 := by
  simp [ikRest, hs]

/-- Claim C1: in both entry points (bootstrap_cluster.py main and
install_k3s.py main), every agent install uses a token that was available
beforehand — freshly produced by the control-plane install or loaded from
the persisted k3s_token.txt artifact (or, in install_k3s.py, passed via
--token) — and when no token can be obtained the run exits 1 before any
installAgent call, issuing none. -/
theorem claim_C1 (a : Args) (e : Env) (sOnly aOnly : Bool) (argTok : Option String)
    (ik : IkEnv) :
    (∀ w t, Event.installAgent w t ∈ (bcMain a e).2 →
      ∃ raw, tokenAfterServer a e = some raw ∧ t = pyStrip raw)
    ∧ (tokenAfterServer a e = none → a.bootstrapOnly = false →
        a.controlPlaneOnly = false →
        (bcMain a e).1 = 1 ∧ ∀ w t, Event.installAgent w t ∉ (bcMain a e).2)
    ∧ (∀ w t, Event.installAgent w t ∈ (ikMain sOnly aOnly argTok ik).2 →
        ikTokenAfter aOnly argTok ik = some t)
    ∧ (ikTokenAfter aOnly argTok ik = none → sOnly = false →
        (ikMain sOnly aOnly argTok ik).1 = 1) := by
  have hbcagent : ∀ w t, Event.installAgent w t ∈ (bcMain a e).2 →
      ∃ raw, tokenAfterServer a e = some raw ∧ t = pyStrip raw := by
    intro w t hmem
    rcases bcMain_shape a e with ⟨evs, hnoa, _, heq⟩ | ⟨_, hnoa, _⟩
    · rw [heq] at hmem
      rcases mem_bcPhase2 a e evs _ hmem with h1 | h1 | ⟨raw, w', htok, _, hww⟩
      · exact absurd h1 (hnoa w t)
      · exact absurd h1 (by simp)
      · cases hww
        exact ⟨raw, htok, rfl⟩
    · exact absurd hmem (hnoa w t)
  have hikagent : ∀ w t, Event.installAgent w t ∈ (ikMain sOnly aOnly argTok ik).2 →
      ikTokenAfter aOnly argTok ik = some t := by
    intro w t hmem
    simp only [ikMain] at hmem
    split at hmem
    · rcases mem_ikRest_agent _ _ _ _ _ _ hmem with h1 | h1
      · exact absurd h1 (by simp)
      · exact h1
    · split at hmem
      · exact absurd hmem (ikServer_no_agent ik w t)
      · rcases mem_ikRest_agent _ _ _ _ _ _ hmem with h1 | h1
        · exact absurd h1 (ikServer_no_agent ik w t)
        · exact h1
  refine ⟨hbcagent, ?_, hikagent, ?_⟩
  · intro htok hbo hcp
    constructor
    · rcases bcMain_shape a e with ⟨evs, _, _, heq⟩ | ⟨h1, _, _⟩
      · rw [heq]; exact bcPhase2_exit_one a e evs hbo hcp htok
      · exact h1
    · intro w t hmem
      obtain ⟨raw, hraw, _⟩ := hbcagent w t hmem
      rw [htok] at hraw
      exact absurd hraw (by simp)
  · intro htok hs
    simp only [ikMain]
    split
    · exact htok ▸ ikRest_exit_one sOnly _ ik hs
    · split
      · rfl
      · exact htok ▸ ikRest_exit_one sOnly _ ik hs

theorem claim_C1_witness :
    tokenAfterServer argsNone envNoToken = none
    ∧ argsNone.bootstrapOnly = false
    ∧ argsNone.controlPlaneOnly = false
    ∧ (bcMain argsNone envNoToken).1 = 1
    ∧ (∀ w t, Event.installAgent w t ∉ (bcMain argsNone envNoToken).2)
    ∧ ikTokenAfter false none ikEnvInstallFail = none
    ∧ (ikMain false false none ikEnvInstallFail).1 = 1 :=
  ⟨rfl, rfl, rfl,
   ((claim_C1 argsNone envNoToken false false none ikEnvInstallFail).2.1 rfl rfl rfl).1,
   ((claim_C1 argsNone envNoToken false false none ikEnvInstallFail).2.1 rfl rfl rfl).2,
   rfl,
   (claim_C1 argsNone envNoToken false false none ikEnvInstallFail).2.2.2 rfl rfl⟩

/-- Claim C4: when the reboot/wait synchronizer is reached and returns
failure, bootstrap_cluster.py main returns exit code 1 immediately and the
installation pipeline is never invoked: the event trace contains no
installServer and no installAgent action. -/
theorem claim_C4 (a : Args) (e : Env)
    (hk : a.k3sOnly = false) (hs : a.skipReboot = false) (hd : a.dryRun = false)
    (hnr : (needsRebootList a e).isEmpty = false) (hw : e.waitOk = false) :
    (bcMain a e).1 = 1
    ∧ Event.installServer ∉ (bcMain a e).2
    ∧ ∀ w t, Event.installAgent w t ∉ (bcMain a e).2 := by
  have hmain : bcMain a e
      = (1, (allNodes a).map (fun n => Event.bootstrapNode n.name)
          ++ (needsRebootList a e).map (fun n => Event.rebootNode n.name)
          ++ [Event.waitNodes]) := by
    simp [bcMain, hk, hs, hd, hnr, hw]
  rw [hmain]
  refine ⟨rfl, ?_, ?_⟩
  · simp [List.mem_append, List.mem_map]
  · intro w t
    simp [List.mem_append, List.mem_map]

theorem claim_C4_witness :
    argsNone.k3sOnly = false ∧ argsNone.skipReboot = false ∧ argsNone.dryRun = false
    ∧ (needsRebootList argsNone envWaitFail).isEmpty = false
    ∧ envWaitFail.waitOk = false
    ∧ (bcMain argsNone envWaitFail).1 = 1
    ∧ Event.installServer ∉ (bcMain argsNone envWaitFail).2
    ∧ ∀ w t, Event.installAgent w t ∉ (bcMain argsNone envWaitFail).2 :=
  ⟨rfl, rfl, rfl, by decide, rfl,
   (claim_C4 argsNone envWaitFail rfl rfl rfl (by decide) rfl).1,
   (claim_C4 argsNone envWaitFail rfl rfl rfl (by decide) rfl).2.1,
   (claim_C4 argsNone envWaitFail rfl rfl rfl (by decide) rfl).2.2⟩

/-- Claim C5 (code bug): a run in which the control-plane bootstrap fails
outright (a Fatal step failure, so bootstrap_ubuntu returns False) while
everything else succeeds still exits 0 and still installs the server and
all agents — main records the failure in bootstrap_success (line 403) but
never reads that variable again, so the claimed fatal-anywhere → non-zero
aggregation does not happen for phase-1 failures. -/
theorem claim_C5 :
    envCpBootFail.bootstrapOk CONTROL_PLANE.name = false
    ∧ (bcMain argsNone envCpBootFail).1 = 0
    ∧ Event.installServer ∈ (bcMain argsNone envCpBootFail).2 := by
  decide

/-- Claim C2 (as stated refuted): in install_k3s.py, when the k3s service
never reports active during the 30-round poll, the run logs a timeout,
continues, and still installs the agent on every worker — there is no
operator-override gate. -/
theorem claim_C2_counterexample :
    Event.pollTimeout ∈ (ikMain false false none ikEnvTimeout).2
    ∧ Event.installAgent "rpi1" "K10deadbeef::node:token"
        ∈ (ikMain false false none ikEnvTimeout).2 := by
  decide

/-- Claim C2 (amended): agent installation is gated only on the
control-plane install phase reporting success (or the operator requesting
agents-only mode) and on token availability; an active-poll timeout is a
warning that does not block agent installs, and no operator-override
mechanism exists.  When the control-plane install phase fails, the run
exits 1 with no agent install issued. -/
theorem claim_C2 (sOnly aOnly : Bool) (argTok : Option String) (ik : IkEnv) :
    (aOnly = false → (ikServer ik).1 = false →
      (ikMain sOnly aOnly argTok ik).1 = 1
      ∧ ∀ w t, Event.installAgent w t ∉ (ikMain sOnly aOnly argTok ik).2)
    ∧ (∀ w t, Event.installAgent w t ∈ (ikMain sOnly aOnly argTok ik).2 →
        aOnly = true ∨ (ikServer ik).1 = true) := by
  constructor
  · intro ha hsv
    have hmain : ikMain sOnly aOnly argTok ik = (1, (ikServer ik).2.2) := by
      simp [ikMain, ha, hsv]
    rw [hmain]
    exact ⟨rfl, fun w t => ikServer_no_agent ik w t⟩
  · intro w t hmem
    cases haO : aOnly
    · simp only [ikMain, haO, Bool.false_eq_true, if_false] at hmem
      split at hmem
      · rename_i hsv
        exact absurd hmem (ikServer_no_agent ik w t)
      · rename_i hsv
        right
        simpa using hsv
    · exact Or.inl rfl

theorem claim_C2_witness :
    (ikServer ikEnvInstallFail).1 = false
    ∧ (ikMain false false none ikEnvInstallFail).1 = 1
    ∧ ∀ w t, Event.installAgent w t ∉ (ikMain false false none ikEnvInstallFail).2 :=
  ⟨rfl,
   ((claim_C2 false false none ikEnvInstallFail).1 rfl rfl).1,
   ((claim_C2 false false none ikEnvInstallFail).1 rfl rfl).2⟩

/-! ### Helper lemmas about substring search and replacement -/

theorem isPrefixOfEq (l₁ l₂ : List Char) : l₁.isPrefixOf l₂ = true ↔ l₁ <+: l₂ :=
  List.isPrefixOf_iff_prefix

theorem containsSub_iff (s pat : List Char) : containsSub s pat = true ↔ pat <:+: s := by
  induction s with
  | nil => simp [containsSub, List.isEmpty_iff, List.infix_nil]
  | cons c t ih =>
    rw [List.infix_cons_iff]
    simp only [containsSub, Bool.or_eq_true, ih, isPrefixOfEq]

theorem strContains_iff (s pat : String) : strContains s pat = true ↔ pat.data <:+: s.data :=
  containsSub_iff s.data pat.data

/-- Stripping a leading block whose characters all avoid the pattern's
characters preserves non-trivial infix occurrences of the pattern. -/
theorem infix_append_right_of_disj (pat : List Char) (hpat : pat ≠ []) :
    ∀ (front T : List Char), (∀ c ∈ front, c ∉ pat) → pat <:+: front ++ T → pat <:+: T := by
  intro front
  induction front with
  | nil => intro T _ h; simpa using h
  | cons r rs ih =>
    intro T hdisj h
    rw [List.cons_append] at h
    rcases List.infix_cons_iff.1 h with h1 | h1
    · cases hp : pat with
      | nil => exact absurd hp hpat
      | cons p pt =>
        rw [hp] at h1
        have hpr : p = r := (List.cons_prefix_cons.1 h1).1
        have hmem : p ∈ pat := hp ▸ List.mem_cons_self p pt
        have : r ∉ pat := hdisj r (List.mem_cons_self r rs)
        exact absurd (hpr ▸ hmem) this
    · exact ih T (fun c hc => hdisj c (List.mem_cons_of_mem _ hc)) h1

/-- A list of pattern characters that is a prefix of the replacement output
was already a prefix of the input (the replacement text shares no character
with the pattern, so it can contribute nothing to such a prefix). -/
theorem replaceAllFuel_pfx (pat rep : List Char)
    (hrep : rep ≠ []) (hdisj : ∀ c ∈ rep, c ∉ pat) :
    ∀ (f : Nat) (s pt : List Char), s.length ≤ f → (∀ c ∈ pt, c ∈ pat) →
    pt <+: replaceAllFuel pat rep f s → pt <+: s := by
  intro f
  induction f with
  | zero =>
    intro s pt hlen _ hpre
    have hs : s = [] := List.length_eq_zero.1 (Nat.le_zero.1 hlen)
    subst hs
    simpa [replaceAllFuel] using hpre
  | succ f ih =>
    intro s pt hlen hsub hpre
    cases s with
    | nil => simpa [replaceAllFuel] using hpre
    | cons c rest =>
      simp only [replaceAllFuel] at hpre
      split at hpre
      · cases pt with
        | nil => exact ⟨c :: rest, rfl⟩
        | cons q pt' =>
          cases hr : rep with
          | nil => exact absurd hr hrep
          | cons r rs =>
            rw [hr, List.cons_append] at hpre
            have hqr : q = r := (List.cons_prefix_cons.1 hpre).1
            have hq : q ∈ pat := hsub q (List.mem_cons_self q pt')
            have : r ∉ pat := hdisj r (hr ▸ List.mem_cons_self r rs)
            exact absurd (hqr ▸ hq) this
      · cases pt with
        | nil => exact ⟨c :: rest, rfl⟩
        | cons q pt' =>
          obtain ⟨hqc, hpt⟩ := List.cons_prefix_cons.1 hpre
          have hlen2 : rest.length ≤ f := by
            simp only [List.length_cons] at hlen
            omega
          have h2 : pt' <+: rest :=
            ih rest pt' hlen2 (fun x hx => hsub x (List.mem_cons_of_mem _ hx)) hpt
          exact hqc ▸ List.cons_prefix_cons.2 ⟨rfl, h2⟩

/-- Core property of the textual substitution: when the replacement text
shares no character with the (non-empty) pattern, the output contains no
occurrence of the pattern at all. -/
theorem replaceAllFuel_no_pat (pat rep : List Char) (hpat : pat ≠ [])
    (hrep : rep ≠ []) (hdisj : ∀ c ∈ rep, c ∉ pat) :
    ∀ (f : Nat) (s : List Char), s.length ≤ f → ¬ pat <:+: replaceAllFuel pat rep f s := by
  intro f
  induction f with
  | zero =>
    intro s hlen h
    have hs : s = [] := List.length_eq_zero.1 (Nat.le_zero.1 hlen)
    subst hs
    exact hpat (List.infix_nil.1 h)
  | succ f ih =>
    intro s hlen h
    cases s with
    | nil => exact hpat (List.infix_nil.1 h)
    | cons c rest =>
      simp only [replaceAllFuel] at h
      split at h
      · rename_i hpfx
        have hplen : 1 ≤ pat.length := by
          cases pat with
          | nil => exact absurd rfl hpat
          | cons p pt => simp
        have hlen2 : ((c :: rest).drop pat.length).length ≤ f := by
          simp only [List.length_drop, List.length_cons]
          simp only [List.length_cons] at hlen
          omega
        exact ih _ hlen2 (infix_append_right_of_disj pat hpat rep _ hdisj h)
      · rename_i hpfx
        rcases List.infix_cons_iff.1 h with h1 | h1
        · cases hp : pat with
          | nil => exact hpat hp
          | cons p pt =>
            rw [hp] at h1
            obtain ⟨hpc, hpt⟩ := List.cons_prefix_cons.1 h1
            rw [← hp] at hpt
            have hlen2 : rest.length ≤ f := by
              simp only [List.length_cons] at hlen
              omega
            have hptrest : pt <+: rest :=
              replaceAllFuel_pfx pat rep hrep hdisj f rest pt hlen2
                (fun x hx => hp ▸ List.mem_cons_of_mem _ hx) hpt
            have hpref : pat <+: c :: rest := by
              rw [hp, hpc]
              exact List.cons_prefix_cons.2 ⟨rfl, hptrest⟩
            exact hpfx ((isPrefixOfEq _ _).2 hpref)
        · have hlen2 : rest.length ≤ f := by
            simp only [List.length_cons] at hlen
            omega
          exact ih rest hlen2 h1

/-- When the pattern does not occur in the input, the substitution is the
identity (text without the literal passes through verbatim). -/
theorem replaceAllFuel_id (pat rep : List Char) :
    ∀ (f : Nat) (s : List Char), ¬ pat <:+: s → replaceAllFuel pat rep f s = s := by
  intro f
  induction f with
  | zero => intro s _; rfl
  | succ f ih =>
    intro s hno
    cases s with
    | nil => rfl
    | cons c rest =>
      have hpfx : pat.isPrefixOf (c :: rest) = false := by
        cases hb : pat.isPrefixOf (c :: rest)
        · rfl
        · exact absurd (((isPrefixOfEq _ _).1 hb).isInfix) hno
      simp only [replaceAllFuel, hpfx, Bool.false_eq_true, if_false]
      rw [ih rest (fun hi => hno (List.infix_cons hi))]

/-- Claim C7 (as stated refuted): the sequential textual substitution can
manufacture a new occurrence of the loopback literal — on the credential
text "127.0.0.localhost" the persisted output is
"127.0.0.192.168.12.112", which does contain "127.0.0.1" even though the
input did not. -/
theorem claim_C7_counterexample :
    rewriteCredential "192.168.12.112" "127.0.0.localhost" = "127.0.0.192.168.12.112"
    ∧ strContains "127.0.0.192.168.12.112" "127.0.0.1" = true
    ∧ strContains "127.0.0.localhost" "127.0.0.1" = false := by
  decide

/-- Claim C7 (amended): the persisted credential never contains the loopback
hostname alias "localhost"; credential text containing neither loopback form
is passed through verbatim; and on a typical credential containing both
"127.0.0.1" and "localhost" as separate tokens both are replaced by the
control-plane address.  (Freedom from "127.0.0.1" is not guaranteed in
general: a replaced "localhost" abutting text such as "127.0.0." can create
a fresh occurrence.) -/
theorem claim_C7 (s : String) :
    strContains (rewriteCredential "192.168.12.112" s) "localhost" = false
    ∧ (strContains s "127.0.0.1" = false → strContains s "localhost" = false →
        rewriteCredential "192.168.12.112" s = s)
    ∧ rewriteCredential "192.168.12.112" "server: https://127.0.0.1:6443 name: localhost"
      = "server: https://192.168.12.112:6443 name: 192.168.12.112" := by
  refine ⟨?_, ?_, by decide⟩
  · have hno := replaceAllFuel_no_pat "localhost".data "192.168.12.112".data
      (by decide) (by decide) (by decide)
      (pyReplace s "127.0.0.1" "192.168.12.112").data.length
      (pyReplace s "127.0.0.1" "192.168.12.112").data (Nat.le_refl _)
    cases hb : strContains (rewriteCredential "192.168.12.112" s) "localhost"
    · rfl
    · exact absurd ((strContains_iff _ _).1 hb) hno
  · intro h1 h2
    have hn1 : ¬ ("127.0.0.1" : String).data <:+: s.data := by
      intro hi
      rw [(strContains_iff s _).2 hi] at h1
      exact Bool.noConfusion h1
    have e1 : pyReplace s "127.0.0.1" "192.168.12.112" = s := by
      simp only [pyReplace]
      rw [replaceAllFuel_id _ _ _ _ hn1]
    have hn2 : ¬ ("localhost" : String).data <:+: s.data := by
      intro hi
      rw [(strContains_iff s _).2 hi] at h2
      exact Bool.noConfusion h2
    rw [rewriteCredential, e1]
    simp only [pyReplace]
    rw [replaceAllFuel_id _ _ _ _ hn2]

theorem claim_C7_witness :
    strContains "apiVersion: v1" "127.0.0.1" = false
    ∧ strContains "apiVersion: v1" "localhost" = false
    ∧ rewriteCredential "192.168.12.112" "apiVersion: v1" = "apiVersion: v1"
    ∧ strContains (rewriteCredential "192.168.12.112"
        "server: https://127.0.0.1:6443 name: localhost") "localhost" = false :=
  ⟨by decide, by decide,
   (claim_C7 "apiVersion: v1").2.1 (by decide) (by decide),
   (claim_C7 "server: https://127.0.0.1:6443 name: localhost").1⟩

end RpiK8s
